import Mathlib

/-!
Verification of the dynamic schema and layout engine of
`HoudiniAssetComponent` (HoudiniEngineForUnreal).

The repository surface available here is the class declaration
`Source/HoudiniEngine/Classes/HoudiniAssetComponent.h`.  The only member
with an inline body is the template `ComputeOffsetAlignmentBoundary`
(lines 226-231); it is embedded directly from that source.  The bodies of
the remaining members (the property factory `CreatePropertyInt` /
`CreatePropertyFloat` / `CreatePropertyToggle` / `CreatePropertyColor`,
the installer `ReplaceClassProperties`, the change tracker around
`ChangedProperties` / `SetChangedParameterValues`, the geometry state
machine over `HoudiniAssetComponentGeometryState`, and the mesh store
guarded by `CriticalSectionTriangles`) are not part of the available
sources, so those operations are modelled from the specification, each
marked `Modelled from the spec:` in its doc comment.
-/

namespace HoudiniEngine

/-- Scratch region capacity `HOUDINIENGINE_ASSET_SCRATCHSPACE_SIZE`:
the header comment fixes a 64k scratch space
(`char ScratchSpaceBuffer[HOUDINIENGINE_ASSET_SCRATCHSPACE_SIZE]`). -/
def HOUDINIENGINE_ASSET_SCRATCHSPACE_SIZE : Nat := 65536

/-- Parameter type tags supported by the factory: the four
`CreateProperty` members of the header (Int, Float, Toggle, Color). -/
inductive ParamType where
  | int
  | float
  | toggle
  | color
deriving DecidableEq, Repr

/-- Byte size of one element of each supported type
(spec section 8: Int = 4B, Float = 4B each, Color = 16B; Toggle is
backed by `int32`, hence 4B). -/
def elemSize : ParamType → Nat
  | ParamType.int => 4
  | ParamType.float => 4
  | ParamType.toggle => 4
  | ParamType.color => 16

/-- Alignment requirement of each supported type
(spec section 8: 4-byte alignment for all four tags; Color is a 4-float
aggregate aligned as float). -/
def typeAlign : ParamType → Nat
  | ParamType.int => 4
  | ParamType.float => 4
  | ParamType.toggle => 4
  | ParamType.color => 4

/-- Decoding of the external (HAPI) type tag into a supported parameter
type; any other tag is unsupported (spec section 4.1). -/
def decodeType : Nat → Option ParamType
  | 0 => some ParamType.int
  | 1 => some ParamType.float
  | 2 => some ParamType.toggle
  | 3 => some ParamType.color
  | _ => none

/-- Parameter as delivered by a cook (spec section 3): name, raw type
tag, element count. -/
structure Parameter where
  name : String
  tag : Nat
  count : Nat
deriving DecidableEq, Repr

/-- Well-formed parameter per the data model of spec section 3: the type
tag is one of the four supported tags and the element count is at
least 1. -/
def WellFormed (p : Parameter) : Prop :=
  (decodeType p.tag).isSome = true ∧ p.count ≠ 0

instance (p : Parameter) : Decidable (WellFormed p) := by
  unfold WellFormed; infer_instance

/-- Field descriptor (spec section 3): name, type tag, element count,
byte offset into the scratch region, byte size, alignment. -/
structure FieldDescriptor where
  name : String
  ptype : ParamType
  count : Nat
  offset : Nat
  size : Nat
  align : Nat
deriving DecidableEq, Repr

/-- Total byte size claimed by a descriptor of the given type and
element count. -/
def descSize (t : ParamType) (count : Nat) : Nat := count * elemSize t

/-- Smallest value that is at least `c` and is a multiple of `a`
(for `a = 0` the cursor is returned unchanged).  This is the round-up
performed by the host's `Align` on power-of-two alignments, written
arithmetically: `(c + a - 1) & ~(a - 1) = ((c + a - 1) / a) * a`. -/
def alignUp (c a : Nat) : Nat :=
  if a = 0 then c else ((c + a - 1) / a) * a

/-- Result of one scratch-allocator reservation: the granted offset and
the advanced cursor. -/
structure ReserveResult where
  offset : Nat
  cursor : Nat
deriving DecidableEq, Repr

/-- Modelled from the spec: `reserve(typeSize, typeAlign) -> offset`
(section 4.2) of the scratch allocator, whose implementation inside the
`CreateProperty` bodies is not part of the available sources.  The
returned offset is the smallest value at least the cursor satisfying
`offset mod typeAlign = 0`; the cursor advances to `offset + typeSize`. -/
def reserve (cursor typeSize a : Nat) : ReserveResult :=
  ⟨alignUp cursor a, alignUp cursor a + typeSize⟩

/-- Factory-level errors (spec section 7). -/
inductive FactoryError where
  | UnsupportedParameterType
  | InvalidElementCount
deriving DecidableEq, Repr

/-- Installation-pipeline errors: a factory rejection, or scratch-space
exhaustion in the allocator (spec section 7). -/
inductive InstallError where
  | factory (e : FactoryError)
  | ScratchSpaceExhausted
deriving DecidableEq, Repr

/-- Modelled from the spec: the Field Descriptor Factory (section 4.1),
standing for the bodies of `CreatePropertyInt` / `CreatePropertyFloat` /
`CreatePropertyToggle` / `CreatePropertyColor`, which are not part of
the available sources; the four members are dispatched here on the
decoded type tag.  Given a parameter and the pre-reserved scratch
offset, it returns an immutable descriptor; it fails with
`UnsupportedParameterType` on an unrecognized tag and with
`InvalidElementCount` on a zero element count. -/
def createProperty (p : Parameter) (offset : Nat) :
    Except FactoryError FieldDescriptor :=
  match decodeType p.tag with
  | none => Except.error FactoryError.UnsupportedParameterType
  | some t =>
    if p.count = 0 then Except.error FactoryError.InvalidElementCount
    else Except.ok ⟨p.name, t, p.count, offset, descSize t p.count, typeAlign t⟩

/-- Modelled from the spec: the factory step threaded through the
instance's scratch storage (a byte list), making its freedom from
storage writes expressible: the factory has no side effect beyond
returning the descriptor (section 4.1), so the storage passes through. -/
def createPropertyOn (scratch : List Nat) (p : Parameter) (offset : Nat) :
    Except FactoryError (FieldDescriptor × List Nat) :=
  (createProperty p offset).map (fun d => (d, scratch))

/-- Modelled from the spec: the descriptor-building loop of
`ReplaceClassProperties` (body not part of the available sources):
walk the parameter list in order, reserving an aligned slice for each
parameter and building its descriptor, failing with
`ScratchSpaceExhausted` when `offset + typeSize` exceeds the capacity
(sections 4.1-4.2). -/
def buildSchemaFrom (capacity : Nat) :
    Nat → List Parameter → Except InstallError (List FieldDescriptor)
  | _, [] => Except.ok []
  | cursor, p :: ps =>
    match decodeType p.tag with
    | none => Except.error (InstallError.factory FactoryError.UnsupportedParameterType)
    | some t =>
      let r := reserve cursor (descSize t p.count) (typeAlign t)
      match createProperty p r.offset with
      | Except.error e => Except.error (InstallError.factory e)
      | Except.ok d =>
        if capacity < r.cursor then Except.error InstallError.ScratchSpaceExhausted
        else
          match buildSchemaFrom capacity r.cursor ps with
          | Except.error e => Except.error e
          | Except.ok rest => Except.ok (d :: rest)

/-- Modelled from the spec: the final cursor of a dry allocator run over
the parameter list from the given cursor — the total bytes the list
requires, padding included (section 4.2).  Parameters whose tag does not
decode claim no space. -/
def requiredBytesFrom : Nat → List Parameter → Nat
  | c, [] => c
  | c, p :: ps =>
    match decodeType p.tag with
    | none => requiredBytesFrom c ps
    | some t => requiredBytesFrom (reserve c (descSize t p.count) (typeAlign t)).cursor ps

/-- Total bytes required by a parameter list from a freshly reset
cursor. -/
def requiredBytes (ps : List Parameter) : Nat := requiredBytesFrom 0 ps

/-- Schema-side state of one component instance: the installed
descriptor chain enumerated by the host's reflection walk. -/
structure ComponentState where
  schema : List FieldDescriptor
deriving DecidableEq, Repr

/-- Modelled from the spec: `install` (section 4.3) wrapping
`ReplaceClassProperties` (body not part of the available sources): build
the new schema from a freshly reset cursor and publish it; on any error
the new schema is rejected and the previous schema remains installed. -/
def install (capacity : Nat) (st : ComponentState) (ps : List Parameter) :
    ComponentState × Option InstallError :=
  match buildSchemaFrom capacity 0 ps with
  | Except.ok s => (⟨s⟩, none)
  | Except.error e => (st, some e)

/-- Identity-relevant part of a descriptor, used to compare an installed
schema with the parameter list it came from. -/
def descSig (d : FieldDescriptor) : String × Option ParamType × Nat :=
  (d.name, some d.ptype, d.count)

/-- Identity-relevant part of a parameter. -/
def paramSig (p : Parameter) : String × Option ParamType × Nat :=
  (p.name, decodeType p.tag, p.count)

/-- Non-overlap of two descriptors' byte ranges
`[offset, offset + size)`. -/
def DisjointDesc (d e : FieldDescriptor) : Prop :=
  d.offset + d.size ≤ e.offset ∨ e.offset + e.size ≤ d.offset

instance (d e : FieldDescriptor) : Decidable (DisjointDesc d e) := by
  unfold DisjointDesc; infer_instance

/-- Layout produced by one allocator pass starting at a cursor: each
descriptor sits at the aligned-up cursor, ends within capacity, and the
cursor advances past it. -/
inductive Layered (cap : Nat) : Nat → List FieldDescriptor → Prop where
  | nil (c : Nat) : Layered cap c []
  | cons (c : Nat) (d : FieldDescriptor) (ds : List FieldDescriptor)
      (hoff : d.offset = alignUp c d.align)
      (hcap : d.offset + d.size ≤ cap)
      (hrest : Layered cap (d.offset + d.size) ds) :
      Layered cap c (d :: ds)


/-- Modelled from the spec: the offsets issued by one allocator pass over
the (typeSize, typeAlign) requests of an ordered parameter list from a
starting cursor (section 4.2). -/
def allocOffsets : Nat → List (Nat × Nat) → List Nat
  | _, [] => []
  | c, q :: qs => (reserve c q.1 q.2).offset :: allocOffsets (reserve c q.1 q.2).cursor qs

/-- Modelled from the spec: a run of the scratch allocator described
relationally by the spec's words (section 4.2): each granted offset is
at least the cursor, satisfies `offset mod typeAlign = 0`, is the
smallest such value, and the cursor advances to `offset + typeSize`. -/
inductive AllocRun : Nat → List (Nat × Nat) → List Nat → Prop where
  | nil (c : Nat) : AllocRun c [] []
  | cons (c typeSize a off : Nat) (reqs : List (Nat × Nat)) (offs : List Nat)
      (hge : c ≤ off) (hmod : off % a = 0)
      (hmin : ∀ m, c ≤ m → m % a = 0 → off ≤ m)
      (hrest : AllocRun (off + typeSize) reqs offs) :
      AllocRun c ((typeSize, a) :: reqs) (off :: offs)

/-- Geometry readiness states, embedded from the header's enum
`HoudiniAssetComponentGeometryState::Type` (lines 73-84). -/
inductive HoudiniAssetComponentGeometryState where
  | None
  | UseDefaultGeometry
  | UsePreviewGeometry
  | WaitForAssetInstantiation
  | WaitForAssetCooking
deriving DecidableEq, Repr

/-- External events driving the geometry readiness machine
(spec sections 4.5 and 6). -/
inductive GeometryEvent where
  | setAsset (valid : Bool)
  | clearAsset
  | instantiated
  | cooked
  | cookFailed
  | requestCook
deriving DecidableEq, Repr

/-- Geometry-side state of a component instance: the readiness state and
the mesh store version (incremented exactly when cooked mesh data is
published). -/
structure GeometryMachine where
  geometryState : HoudiniAssetComponentGeometryState
  meshVersion : Nat
deriving DecidableEq, Repr

/-- Modelled from the spec: the transition function of the geometry
readiness state machine (section 4.5); the code driving the
`GeometryState` member is not part of the available sources.  A
completed cook publishes the mesh (advancing the version) and moves to
`UsePreviewGeometry`; on a cook failure the machine remains in place
(the spec allows remain-or-fallback; remaining is chosen); clearing the
asset returns to `None` from any state; all other pairs are inert. -/
def geometryStep (m : GeometryMachine) (e : GeometryEvent) : GeometryMachine :=
  match e, m.geometryState with
  | GeometryEvent.clearAsset, _ =>
    ⟨HoudiniAssetComponentGeometryState.None, m.meshVersion⟩
  | GeometryEvent.setAsset true, HoudiniAssetComponentGeometryState.None =>
    ⟨HoudiniAssetComponentGeometryState.WaitForAssetInstantiation, m.meshVersion⟩
  | GeometryEvent.setAsset false, HoudiniAssetComponentGeometryState.None =>
    ⟨HoudiniAssetComponentGeometryState.UseDefaultGeometry, m.meshVersion⟩
  | GeometryEvent.instantiated, HoudiniAssetComponentGeometryState.WaitForAssetInstantiation =>
    ⟨HoudiniAssetComponentGeometryState.WaitForAssetCooking, m.meshVersion⟩
  | GeometryEvent.cooked, HoudiniAssetComponentGeometryState.WaitForAssetCooking =>
    ⟨HoudiniAssetComponentGeometryState.UsePreviewGeometry, m.meshVersion + 1⟩
  | GeometryEvent.requestCook, HoudiniAssetComponentGeometryState.UsePreviewGeometry =>
    ⟨HoudiniAssetComponentGeometryState.WaitForAssetCooking, m.meshVersion⟩
  | _, _ => m

/-- Folding the geometry machine over a sequence of events. -/
def geometryRun (m : GeometryMachine) (es : List GeometryEvent) : GeometryMachine :=
  es.foldl geometryStep m

/-- Modelled from the spec: `markChanged` of the Change Tracker
(section 4.4), standing for the insertion into the `TSet`-typed
`ChangedProperties` member whose manipulation code is not part of the
available sources; set semantics — adding a present element is a
no-op. -/
def markChanged (s : List FieldDescriptor) (d : FieldDescriptor) : List FieldDescriptor :=
  if d ∈ s then s else d :: s

/-- Modelled from the spec: `drainForRecook() -> ChangeSet`
(section 4.4) atomically returns the current set and clears it. -/
def drainForRecook (s : List FieldDescriptor) :
    List FieldDescriptor × List FieldDescriptor := (s, [])

/-- Consistent triple returned by a guarded mesh read (spec
section 4.6): triangle sequence, bounding volume, version. -/
structure MeshSnapshot where
  triangles : List Nat
  bounds : Nat
  version : Nat
deriving DecidableEq, Repr

/-- Position of the replacing writer inside the critical section: idle
(guard free), or holding `CriticalSectionTriangles` part-way through a
replace. -/
inductive WriterPhase where
  | idle
  | locked (t : List Nat) (b : Nat)
  | wroteTriangles (t : List Nat) (b : Nat)
  | wroteBounds (t : List Nat) (b : Nat)
deriving DecidableEq, Repr

/-- Mesh Data Store of one instance: the `HoudiniMeshTriangles` array
(triangles abstracted to identifiers), the `HoudiniMeshSphereBounds`
volume (abstracted to an identifier), a version counter, and the
writer's phase within the guard. -/
structure MeshStore where
  triangles : List Nat
  bounds : Nat
  version : Nat
  phase : WriterPhase
deriving DecidableEq, Repr

/-- Mesh store of a freshly created component: no triangles, default
bounds, version zero, guard free. -/
def initialMeshStore : MeshStore := ⟨[], 0, 0, WriterPhase.idle⟩

/-- Guarded read of the store (`GetMeshTriangles` together with the
bounds and version): the triple visible to a reader holding the
guard. -/
def readSnapshot (s : MeshStore) : MeshSnapshot := ⟨s.triangles, s.bounds, s.version⟩

/-- Modelled from the spec: every store the writer passes through while
executing the given replace script in order (sections 4.6 and 5): each
`replace(triangles, bounds)` acquires `CriticalSectionTriangles`, writes
the triangles, writes the bounds, advances the version and releases.
Readers are admitted by the guard exactly at the `idle` stores. -/
def microStates : MeshStore → List (List Nat × Nat) → List MeshStore
  | s, [] => [s]
  | s, op :: rest =>
    s :: ⟨s.triangles, s.bounds, s.version, WriterPhase.locked op.1 op.2⟩
      :: ⟨op.1, s.bounds, s.version, WriterPhase.wroteTriangles op.1 op.2⟩
      :: ⟨op.1, op.2, s.version, WriterPhase.wroteBounds op.1 op.2⟩
      :: microStates ⟨op.1, op.2, s.version + 1, WriterPhase.idle⟩ rest

/-- Snapshots produced by the atomic whole-replace semantics: the
initial triple and the triple after each complete replace of the
script — exactly the mutually consistent triples. -/
def atomicSnapshots : MeshSnapshot → List (List Nat × Nat) → List MeshSnapshot
  | snap, [] => [snap]
  | snap, op :: rest => snap :: atomicSnapshots ⟨op.1, op.2, snap.version + 1⟩ rest

/-- Embedded from the source (`HoudiniAssetComponent.h` lines 226-231):
`ComputeOffsetAlignmentBoundary<TType>(Offset)` returns
`Align<TType*>((TType*)(((char*) this) + Offset), ALIGNOF(TType))` —
the host's `Align` round-up applied to the absolute address
`this + Offset`, not to the scratch-relative offset.  Addresses are
modelled as naturals (`base` standing for `this`); `Align` on a
power-of-two alignment is the round-up `alignUp`. -/
def ComputeOffsetAlignmentBoundary (base offset a : Nat) : Nat :=
  alignUp (base + offset) a

/-- Two's-complement reinterpretation of an unsigned 32-bit value as the
signed 32-bit `int` through which `ReplacePropertyOffset(UProperty*,
int Offset)` publishes the factory's accumulated `uint32` offset (the
header notes the property offset is a signed 32-bit integer). -/
def int32OfUInt32 (n : Nat) : Int :=
  if n % 2 ^ 32 < 2 ^ 31 then ((n % 2 ^ 32 : Nat) : Int)
  else ((n % 2 ^ 32 : Nat) : Int) - 2 ^ 32

/-- Offset actually published into the patched property metadata by
`ReplacePropertyOffset`, as a function of the allocated offset. -/
def ReplacePropertyOffset (offset : Nat) : Int := int32OfUInt32 offset

/-- Concrete parameter list of the spec's scenario (section 8):
`[Int("Count",1), Color("Tint",1), Float("Scale",3)]`. -/
def scenarioParams : List Parameter := [⟨"Count", 0, 1⟩, ⟨"Tint", 3, 1⟩, ⟨"Scale", 1, 3⟩]

/-! Arithmetic facts about the round-up `alignUp`. -/

theorem alignUp_ge (c a : Nat) : c ≤ alignUp c a := by
  unfold alignUp
  rcases Nat.eq_zero_or_pos a with h | h
  · simp [h]
  · have hne : a ≠ 0 := Nat.pos_iff_ne_zero.mp h
    simp only [hne, if_false]
    have hd := Nat.div_add_mod (c + a - 1) a
    have hm : (c + a - 1) % a < a := Nat.mod_lt _ h
    set q := (c + a - 1) / a with hq
    rw [Nat.mul_comm]
    generalize hX : a * q = X at hd ⊢
    omega

theorem alignUp_mod (c a : Nat) (ha : 0 < a) : alignUp c a % a = 0 := by
  unfold alignUp
  have hne : a ≠ 0 := Nat.pos_iff_ne_zero.mp ha
  simp [hne, Nat.mul_mod_left]

theorem alignUp_min (c a m : Nat) (ha : 0 < a) (hcm : c ≤ m) (hm : m % a = 0) :
    alignUp c a ≤ m := by
  unfold alignUp
  have hne : a ≠ 0 := Nat.pos_iff_ne_zero.mp ha
  simp only [hne, if_false]
  obtain ⟨k, hk⟩ : a ∣ m := Nat.dvd_of_mod_eq_zero hm
  subst hk
  have h1 : c + a - 1 ≤ a * k + (a - 1) := by omega
  have h2 : (c + a - 1) / a ≤ (a * k + (a - 1)) / a := Nat.div_le_div_right h1
  have h3 : (a * k + (a - 1)) / a = k + (a - 1) / a := Nat.mul_add_div ha k (a - 1)
  have h4 : (a - 1) / a = 0 := Nat.div_eq_of_lt (by omega)
  have h5 : (c + a - 1) / a ≤ k := by omega
  calc (c + a - 1) / a * a ≤ k * a := Nat.mul_le_mul_right a h5
  _ = a * k := Nat.mul_comm _ _

theorem typeAlign_pos (t : ParamType) : 0 < typeAlign t := by
  cases t <;> decide

theorem elemSize_pos (t : ParamType) : 0 < elemSize t := by
  cases t <;> decide

/-! Consequences of the `Layered` layout predicate. -/

theorem Layered.bound {cap c : Nat} {s : List FieldDescriptor}
    (h : Layered cap c s) : ∀ d ∈ s, d.offset + d.size ≤ cap := by
  induction h with
  | nil c => intro d hd; cases hd
  | cons c d ds hoff hcap hrest ih =>
    intro e he
    rcases List.mem_cons.mp he with rfl | he
    · exact hcap
    · exact ih e he

theorem Layered.offset_ge {cap c : Nat} {s : List FieldDescriptor}
    (h : Layered cap c s) : ∀ d ∈ s, c ≤ d.offset := by
  induction h with
  | nil c => intro d hd; cases hd
  | cons c d ds hoff hcap hrest ih =>
    intro e he
    rcases List.mem_cons.mp he with rfl | he
    · rw [hoff]; exact alignUp_ge c e.align
    · have h1 : c ≤ d.offset := by rw [hoff]; exact alignUp_ge c d.align
      exact Nat.le_trans (Nat.le_trans h1 (Nat.le_add_right _ _)) (ih e he)

theorem Layered.sorted {cap c : Nat} {s : List FieldDescriptor}
    (h : Layered cap c s) :
    List.Pairwise (fun d e => d.offset + d.size ≤ e.offset) s := by
  induction h with
  | nil c => exact List.Pairwise.nil
  | cons c d ds hoff hcap hrest ih =>
    exact List.Pairwise.cons (fun e he => hrest.offset_ge e he) ih

theorem Layered.aligned {cap c : Nat} {s : List FieldDescriptor}
    (h : Layered cap c s) (hpos : ∀ d ∈ s, 0 < d.align) :
    ∀ d ∈ s, d.offset % d.align = 0 := by
  induction h with
  | nil c => intro d hd; cases hd
  | cons c d ds hoff hcap hrest ih =>
    intro e he
    rcases List.mem_cons.mp he with rfl | he
    · rw [hoff]; exact alignUp_mod c e.align (hpos e (List.mem_cons_self e ds))
    · exact ih (fun f hf => hpos f (List.mem_cons_of_mem d hf)) e he

/-! Behaviour of the schema-building pass. -/

theorem buildSchemaFrom_ok (cap : Nat) (ps : List Parameter) :
    ∀ (c : Nat) (s : List FieldDescriptor),
    buildSchemaFrom cap c ps = Except.ok s →
    s.map descSig = ps.map paramSig ∧
    Layered cap c s ∧
    ∀ d ∈ s, d.align = typeAlign d.ptype ∧ d.size = descSize d.ptype d.count ∧ 0 < d.count := by
  induction ps with
  | nil =>
    intro c s h
    rw [buildSchemaFrom] at h
    cases h
    refine ⟨rfl, Layered.nil c, ?_⟩
    intro d hd; cases hd
  | cons p ps ih =>
    intro c s h
    rw [buildSchemaFrom] at h
    cases hdec : decodeType p.tag with
    | none => rw [hdec] at h; cases h
    | some t =>
      rw [hdec] at h
      simp only [reserve] at h
      by_cases hcnt : p.count = 0
      · simp [createProperty, hdec, hcnt] at h
      · simp only [createProperty, hdec, hcnt, if_false] at h
        by_cases hcap : cap < alignUp c (typeAlign t) + descSize t p.count
        · simp only [if_pos hcap] at h; cases h
        · simp only [if_neg hcap] at h
          cases hrec : buildSchemaFrom cap (alignUp c (typeAlign t) + descSize t p.count) ps with
          | error e => rw [hrec] at h; cases h
          | ok rest =>
            rw [hrec] at h
            cases h
            obtain ⟨ihsig, ihlay, ihfacts⟩ := ih _ _ hrec
            refine ⟨?_, ?_, ?_⟩
            · simp [descSig, paramSig, hdec, ihsig]
            · refine Layered.cons c _ rest rfl ?_ ?_
              · exact Nat.le_of_not_lt hcap
              · exact ihlay
            · intro d hd
              rcases List.mem_cons.mp hd with rfl | hd
              · exact ⟨rfl, rfl, Nat.pos_of_ne_zero hcnt⟩
              · exact ihfacts d hd

theorem requiredBytesFrom_ge (ps : List Parameter) : ∀ c, c ≤ requiredBytesFrom c ps := by
  induction ps with
  | nil => intro c; rw [requiredBytesFrom]
  | cons p ps ih =>
    intro c
    rw [requiredBytesFrom]
    cases hdec : decodeType p.tag with
    | none => exact ih c
    | some t =>
      refine Nat.le_trans ?_ (ih _)
      simp only [reserve]
      exact Nat.le_trans (alignUp_ge c (typeAlign t)) (Nat.le_add_right _ _)

theorem buildSchemaFrom_ok_of_fits (cap : Nat) (ps : List Parameter) :
    ∀ c, (∀ p ∈ ps, WellFormed p) → requiredBytesFrom c ps ≤ cap →
    ∃ s, buildSchemaFrom cap c ps = Except.ok s := by
  induction ps with
  | nil => intro c _ _; exact ⟨[], rfl⟩
  | cons p ps ih =>
    intro c hwf hfit
    have hpwf : WellFormed p := hwf p (List.mem_cons_self p ps)
    obtain ⟨t, hdec⟩ : ∃ t, decodeType p.tag = some t :=
      Option.isSome_iff_exists.mp hpwf.1
    have hcnt : p.count ≠ 0 := hpwf.2
    rw [requiredBytesFrom, hdec] at hfit
    simp only [reserve] at hfit
    have hcur : alignUp c (typeAlign t) + descSize t p.count ≤ cap :=
      Nat.le_trans (requiredBytesFrom_ge ps _) hfit
    obtain ⟨rest, hrest⟩ := ih (alignUp c (typeAlign t) + descSize t p.count)
      (fun q hq => hwf q (List.mem_cons_of_mem p hq)) hfit
    refine ⟨⟨p.name, t, p.count, alignUp c (typeAlign t), descSize t p.count, typeAlign t⟩ :: rest, ?_⟩
    rw [buildSchemaFrom, hdec]
    simp only [reserve, createProperty, hdec, hcnt, if_false,
      if_neg (Nat.not_lt.mpr hcur), hrest]

theorem buildSchemaFrom_exhausts (cap : Nat) (ps : List Parameter) :
    ∀ c, (∀ p ∈ ps, WellFormed p) → c ≤ cap → cap < requiredBytesFrom c ps →
    buildSchemaFrom cap c ps = Except.error InstallError.ScratchSpaceExhausted := by
  induction ps with
  | nil =>
    intro c _ hle hover
    rw [requiredBytesFrom] at hover
    omega
  | cons p ps ih =>
    intro c hwf hle hover
    have hpwf : WellFormed p := hwf p (List.mem_cons_self p ps)
    obtain ⟨t, hdec⟩ : ∃ t, decodeType p.tag = some t :=
      Option.isSome_iff_exists.mp hpwf.1
    have hcnt : p.count ≠ 0 := hpwf.2
    rw [requiredBytesFrom, hdec] at hover
    simp only [reserve] at hover
    rw [buildSchemaFrom, hdec]
    simp only [reserve, createProperty, hdec, hcnt, if_false]
    by_cases hcap : cap < alignUp c (typeAlign t) + descSize t p.count
    · simp only [if_pos hcap]
    · simp only [if_neg hcap]
      rw [ih _ (fun q hq => hwf q (List.mem_cons_of_mem p hq)) (Nat.le_of_not_lt hcap) hover]

/-- C1: for every parameter list whose total required bytes fit the
scratch capacity, installing the schema built from it and enumerating
the installed descriptors yields exactly one descriptor per parameter,
in the original parameter order, with pairwise non-overlapping byte
ranges, every offset a multiple of its type's alignment, and every
`offset + size` within the capacity. -/
theorem claim_C1_install_layout (cap : Nat) (st : ComponentState) (ps : List Parameter)
    (hwf : ∀ p ∈ ps, WellFormed p) (hfit : requiredBytes ps ≤ cap) :
    (install cap st ps).2 = none ∧
    (install cap st ps).1.schema.map descSig = ps.map paramSig ∧
    (install cap st ps).1.schema.length = ps.length ∧
    List.Pairwise DisjointDesc (install cap st ps).1.schema ∧
    (∀ d ∈ (install cap st ps).1.schema, d.offset % d.align = 0) ∧
    (∀ d ∈ (install cap st ps).1.schema, d.offset + d.size ≤ cap) := by
  obtain ⟨s, hs⟩ := buildSchemaFrom_ok_of_fits cap ps 0 hwf hfit
  obtain ⟨hsig, hlay, hfacts⟩ := buildSchemaFrom_ok cap ps 0 s hs
  have hpos : ∀ d ∈ s, 0 < d.align := by
    intro d hd
    rw [(hfacts d hd).1]
    exact typeAlign_pos d.ptype
  simp only [install, hs]
  refine ⟨trivial, hsig, ?_, ?_, ?_, ?_⟩
  · have hlen := congrArg List.length hsig
    simpa using hlen
  · exact (hlay.sorted).imp (fun h => Or.inl h)
  · exact hlay.aligned hpos
  · exact hlay.bound

/-- Witness for C1 on the spec's concrete scenario: capacity 64,
parameters Int-1 / Color-1 / Float-3. -/
theorem claim_C1_witness :
    ((∀ p ∈ scenarioParams, WellFormed p) ∧ requiredBytes scenarioParams ≤ 64) ∧
    ((install 64 ⟨[]⟩ scenarioParams).2 = none ∧
     (install 64 ⟨[]⟩ scenarioParams).1.schema.map descSig = scenarioParams.map paramSig ∧
     (install 64 ⟨[]⟩ scenarioParams).1.schema.length = scenarioParams.length ∧
     List.Pairwise DisjointDesc (install 64 ⟨[]⟩ scenarioParams).1.schema ∧
     (∀ d ∈ (install 64 ⟨[]⟩ scenarioParams).1.schema, d.offset % d.align = 0) ∧
     (∀ d ∈ (install 64 ⟨[]⟩ scenarioParams).1.schema, d.offset + d.size ≤ 64)) :=
  ⟨⟨by decide, by decide⟩,
   claim_C1_install_layout 64 ⟨[]⟩ scenarioParams (by decide) (by decide)⟩

/-- C2: a `reserve(typeSize, typeAlign)` call at cursor `c` returns the
smallest offset at least `c` with `offset mod typeAlign = 0`, and the
cursor after the call equals `offset + typeSize`. -/
theorem claim_C2_reserve (c typeSize a : Nat) (ha : 0 < a) :
    c ≤ (reserve c typeSize a).offset ∧
    (reserve c typeSize a).offset % a = 0 ∧
    (∀ m, c ≤ m → m % a = 0 → (reserve c typeSize a).offset ≤ m) ∧
    (reserve c typeSize a).cursor = (reserve c typeSize a).offset + typeSize := by
  refine ⟨alignUp_ge c a, alignUp_mod c a ha, ?_, rfl⟩
  intro m hcm hm
  exact alignUp_min c a m ha hcm hm

/-- Witness for C2: cursor 5, size 4, alignment 4 gives offset 8 (the
minimality instantiated at the concrete candidate 8) and cursor 12. -/
theorem claim_C2_witness :
    0 < 4 ∧ 5 ≤ (reserve 5 4 4).offset ∧ (reserve 5 4 4).offset % 4 = 0 ∧
    (reserve 5 4 4).offset ≤ 8 ∧
    (reserve 5 4 4).cursor = (reserve 5 4 4).offset + 4 := by
  have h := claim_C2_reserve 5 4 4 (by decide)
  exact ⟨by decide, h.1, h.2.1, h.2.2.1 8 (by decide) (by decide), h.2.2.2⟩

/-- C3: for every parameter list whose total required bytes exceed the
scratch capacity, installation fails with `ScratchSpaceExhausted` and
the component's schema state — the previously installed schema, or the
empty schema if none was installed — is returned unchanged. -/
theorem claim_C3_exhausted_keeps_schema (cap : Nat) (st : ComponentState)
    (ps : List Parameter)
    (hwf : ∀ p ∈ ps, WellFormed p) (hover : cap < requiredBytes ps) :
    install cap st ps = (st, some InstallError.ScratchSpaceExhausted) := by
  rw [install, buildSchemaFrom_exhausts cap ps 0 hwf (Nat.zero_le cap) hover]

/-- Witness for C3 on the spec's concrete scenario: the same parameter
list with capacity 16 is rejected and a previously installed one-field
schema survives. -/
theorem claim_C3_witness :
    ((∀ p ∈ scenarioParams, WellFormed p) ∧ 16 < requiredBytes scenarioParams) ∧
    install 16 ⟨[⟨"Old", ParamType.int, 1, 0, 4, 4⟩]⟩ scenarioParams =
      (⟨[⟨"Old", ParamType.int, 1, 0, 4, 4⟩]⟩, some InstallError.ScratchSpaceExhausted) :=
  ⟨⟨by decide, by decide⟩,
   claim_C3_exhausted_keeps_schema 16 ⟨[⟨"Old", ParamType.int, 1, 0, 4, 4⟩]⟩
     scenarioParams (by decide) (by decide)⟩

/-! Determinism of the allocator (C4). -/

theorem allocRun_allocOffsets (reqs : List (Nat × Nat)) :
    ∀ c, (∀ q ∈ reqs, 0 < q.2) → AllocRun c reqs (allocOffsets c reqs) := by
  induction reqs with
  | nil => intro c _; exact AllocRun.nil c
  | cons q qs ih =>
    intro c hpos
    have hq : 0 < q.2 := hpos q (List.mem_cons_self q qs)
    rw [allocOffsets]
    refine AllocRun.cons c q.1 q.2 _ qs _ (alignUp_ge c q.2) (alignUp_mod c q.2 hq)
      (fun m hm hmod => alignUp_min c q.2 m hq hm hmod) ?_
    exact ih _ (fun r hr => hpos r (List.mem_cons_of_mem q hr))

/-- C4: for every ordered request list and every starting cursor, any
two runs of the allocator produce identical offset sequences — the
layout is a deterministic function of the ordered list and the starting
cursor. -/
theorem claim_C4_deterministic_layout (c : Nat) (reqs : List (Nat × Nat))
    (offs1 offs2 : List Nat)
    (h1 : AllocRun c reqs offs1) (h2 : AllocRun c reqs offs2) : offs1 = offs2 := by
  induction h1 generalizing offs2 with
  | nil c => cases h2; rfl
  | cons c typeSize a off reqs offs hge hmod hmin hrest ih =>
    cases h2 with
    | cons _ _ _ off2 _ offs2x hge2 hmod2 hmin2 hrest2 =>
      have heq : off = off2 := Nat.le_antisymm (hmin off2 hge2 hmod2) (hmin2 off hge hmod)
      subst heq
      rw [ih _ hrest2]

/-- Witness for C4: a hand-built run and the executable allocator's run
over the scenario's Int-then-Color request list both start at cursor 0
and agree on the offsets `[0, 4]`. -/
theorem claim_C4_witness :
    AllocRun 0 [(4, 4), (16, 4)] [0, 4] ∧
    AllocRun 0 [(4, 4), (16, 4)] (allocOffsets 0 [(4, 4), (16, 4)]) ∧
    [0, 4] = allocOffsets 0 [(4, 4), (16, 4)] := by
  have hrun1 : AllocRun 0 [(4, 4), (16, 4)] [0, 4] := by
    refine AllocRun.cons 0 4 4 0 _ _ (Nat.le_refl 0) (by decide)
      (fun m hm _ => Nat.zero_le m) ?_
    refine AllocRun.cons 4 16 4 4 _ _ (Nat.le_refl 4) (by decide)
      (fun m hm _ => hm) ?_
    exact AllocRun.nil 20
  have hrun2 : AllocRun 0 [(4, 4), (16, 4)] (allocOffsets 0 [(4, 4), (16, 4)]) :=
    allocRun_allocOffsets [(4, 4), (16, 4)] 0 (by decide)
  exact ⟨hrun1, hrun2, claim_C4_deterministic_layout 0 [(4, 4), (16, 4)] _ _ hrun1 hrun2⟩

/-- C5: from `None`, setting a valid asset then completing instantiation
then a completed cook reaches `UsePreviewGeometry` with the mesh data
replaced (version advanced), and a cook failure in
`WaitForAssetCooking` never moves the machine to `UsePreviewGeometry`
nor touches the mesh data. -/
theorem claim_C5_geometry_state_machine (v : Nat) (m : GeometryMachine)
    (hm : m.geometryState = HoudiniAssetComponentGeometryState.WaitForAssetCooking) :
    (geometryRun ⟨HoudiniAssetComponentGeometryState.None, v⟩
        [GeometryEvent.setAsset true, GeometryEvent.instantiated,
         GeometryEvent.cooked]).geometryState =
      HoudiniAssetComponentGeometryState.UsePreviewGeometry ∧
    (geometryRun ⟨HoudiniAssetComponentGeometryState.None, v⟩
        [GeometryEvent.setAsset true, GeometryEvent.instantiated,
         GeometryEvent.cooked]).meshVersion = v + 1 ∧
    (geometryStep m GeometryEvent.cookFailed).geometryState ≠
      HoudiniAssetComponentGeometryState.UsePreviewGeometry ∧
    (geometryStep m GeometryEvent.cookFailed).meshVersion = m.meshVersion := by
  obtain ⟨s, ver⟩ := m
  simp only at hm
  subst hm
  refine ⟨rfl, rfl, ?_, rfl⟩
  simp [geometryStep]

/-- Witness for C5: the cook-success path from `None` at version 0, and
a cook failure at `WaitForAssetCooking` with version 7. -/
theorem claim_C5_witness :
    (⟨HoudiniAssetComponentGeometryState.WaitForAssetCooking, 7⟩ :
      GeometryMachine).geometryState =
      HoudiniAssetComponentGeometryState.WaitForAssetCooking ∧
    (geometryRun ⟨HoudiniAssetComponentGeometryState.None, 0⟩
        [GeometryEvent.setAsset true, GeometryEvent.instantiated,
         GeometryEvent.cooked]).geometryState =
      HoudiniAssetComponentGeometryState.UsePreviewGeometry ∧
    (geometryStep ⟨HoudiniAssetComponentGeometryState.WaitForAssetCooking, 7⟩
        GeometryEvent.cookFailed).geometryState ≠
      HoudiniAssetComponentGeometryState.UsePreviewGeometry := by
  have h := claim_C5_geometry_state_machine 0
    ⟨HoudiniAssetComponentGeometryState.WaitForAssetCooking, 7⟩ rfl
  exact ⟨rfl, h.1, h.2.2.1⟩

/-- C6: `markChanged` is idempotent — marking the same descriptor twice
and draining yields a change set of size 1, marking twice equals
marking once on any set, and `drainForRecook` returns the current set
while leaving the tracker empty. -/
theorem claim_C6_markChanged_idempotent :
    (∀ d : FieldDescriptor,
      (drainForRecook (markChanged (markChanged [] d) d)).1.length = 1) ∧
    (∀ (s : List FieldDescriptor) (d : FieldDescriptor),
      markChanged (markChanged s d) d = markChanged s d) ∧
    (∀ s : List FieldDescriptor, drainForRecook s = (s, [])) := by
  refine ⟨?_, ?_, fun s => rfl⟩
  · intro d
    simp [markChanged, drainForRecook]
  · intro s d
    by_cases hd : d ∈ s
    · simp [markChanged, hd]
    · simp [markChanged, hd]

/-- C7: the factory fails with `UnsupportedParameterType` when the type
tag decodes to none of Int/Float/Toggle/Color, fails with
`InvalidElementCount` when the element count is 0, and on success has
no effect beyond the returned descriptor — the scratch storage it is
threaded through comes back unchanged. -/
theorem claim_C7_factory_errors (p : Parameter) (offset : Nat) :
    (decodeType p.tag = none →
      createProperty p offset = Except.error FactoryError.UnsupportedParameterType) ∧
    (∀ t, decodeType p.tag = some t → p.count = 0 →
      createProperty p offset = Except.error FactoryError.InvalidElementCount) ∧
    (∀ (scratch : List Nat) (res : FieldDescriptor × List Nat),
      createPropertyOn scratch p offset = Except.ok res → res.2 = scratch) := by
  refine ⟨?_, ?_, ?_⟩
  · intro h
    rw [createProperty, h]
  · intro t ht hc
    rw [createProperty, ht]
    simp [hc]
  · intro scratch res h
    cases hcp : createProperty p offset with
    | error e => simp [createPropertyOn, hcp, Except.map] at h
    | ok d =>
      simp [createPropertyOn, hcp, Except.map] at h
      rw [← h]

/-- Witness for C7: tag 9 is rejected as unsupported, an Int parameter
of count 0 is rejected as invalid, and a successful build returns the
scratch list it was given. -/
theorem claim_C7_witness :
    createProperty ⟨"X", 9, 1⟩ 0 = Except.error FactoryError.UnsupportedParameterType ∧
    createProperty ⟨"Y", 0, 0⟩ 4 = Except.error FactoryError.InvalidElementCount ∧
    ((⟨⟨"Z", ParamType.int, 2, 0, 8, 4⟩, [5]⟩ : FieldDescriptor × List Nat)).2 = [5] :=
  ⟨(claim_C7_factory_errors ⟨"X", 9, 1⟩ 0).1 rfl,
   (claim_C7_factory_errors ⟨"Y", 0, 0⟩ 4).2.1 ParamType.int rfl rfl,
   (claim_C7_factory_errors ⟨"Z", 0, 2⟩ 0).2.2 [5] ⟨⟨"Z", ParamType.int, 2, 0, 8, 4⟩, [5]⟩ rfl⟩

/-! Consistency of guarded mesh reads (C8). -/

theorem microStates_idle_consistent (ops : List (List Nat × Nat)) :
    ∀ (s0 s : MeshStore), s ∈ microStates s0 ops → s.phase = WriterPhase.idle →
    readSnapshot s ∈ atomicSnapshots (readSnapshot s0) ops := by
  induction ops with
  | nil =>
    intro s0 s hmem _
    rw [microStates] at hmem
    rw [atomicSnapshots]
    rcases List.mem_singleton.mp hmem with rfl
    exact List.mem_singleton.mpr rfl
  | cons op rest ih =>
    intro s0 s hmem hidle
    rw [microStates] at hmem
    rw [atomicSnapshots]
    rcases List.mem_cons.mp hmem with rfl | hmem
    · exact List.mem_cons_self _ _
    rcases List.mem_cons.mp hmem with rfl | hmem
    · simp at hidle
    rcases List.mem_cons.mp hmem with rfl | hmem
    · simp at hidle
    rcases List.mem_cons.mp hmem with rfl | hmem
    · simp at hidle
    · exact List.mem_cons_of_mem _ (ih _ s hmem hidle)

/-- C8: every read taken while the guard is free (writer phase `idle`)
during any interleaving of a replace script observes a triple produced
by some whole completed replace — a triangle sequence always paired
with its own bounds and version; no partial update is observable. -/
theorem claim_C8_snapshot_consistency (ops : List (List Nat × Nat)) (s : MeshStore)
    (hs : s ∈ microStates initialMeshStore ops)
    (hidle : s.phase = WriterPhase.idle) :
    readSnapshot s ∈ atomicSnapshots ⟨[], 0, 0⟩ ops :=
  microStates_idle_consistent ops initialMeshStore s hs hidle

/-- Witness for C8: the store after two complete replaces is a guarded
read point and observes the second replace's own triple. -/
theorem claim_C8_witness :
    (⟨[3], 20, 2, WriterPhase.idle⟩ : MeshStore) ∈
      microStates initialMeshStore [([1, 2], 10), ([3], 20)] ∧
    (⟨[3], 20, 2, WriterPhase.idle⟩ : MeshStore).phase = WriterPhase.idle ∧
    readSnapshot ⟨[3], 20, 2, WriterPhase.idle⟩ ∈
      atomicSnapshots ⟨[], 0, 0⟩ [([1, 2], 10), ([3], 20)] :=
  ⟨by decide, rfl,
   claim_C8_snapshot_consistency [([1, 2], 10), ([3], 20)]
     ⟨[3], 20, 2, WriterPhase.idle⟩ (by decide) rfl⟩

/-- C9: `ComputeOffsetAlignmentBoundary<T>(Offset)` returns the smallest
address at least `base + Offset` that is a multiple of the type's
alignment — the round-up acts on the absolute instance address, so the
returned slice's scratch-relative offset is a multiple of the alignment
exactly when the instance base address itself is. -/
theorem claim_C9_absolute_alignment (base offset a : Nat) (ha : 0 < a) :
    base + offset ≤ ComputeOffsetAlignmentBoundary base offset a ∧
    ComputeOffsetAlignmentBoundary base offset a % a = 0 ∧
    (∀ m, base + offset ≤ m → m % a = 0 →
      ComputeOffsetAlignmentBoundary base offset a ≤ m) ∧
    (a ∣ (ComputeOffsetAlignmentBoundary base offset a - base) ↔ a ∣ base) := by
  refine ⟨alignUp_ge _ a, alignUp_mod _ a ha,
    fun m h1 h2 => alignUp_min _ a m ha h1 h2, ?_⟩
  have hdr : a ∣ ComputeOffsetAlignmentBoundary base offset a :=
    Nat.dvd_of_mod_eq_zero (alignUp_mod _ a ha)
  have hbr : base ≤ ComputeOffsetAlignmentBoundary base offset a :=
    Nat.le_trans (Nat.le_add_right base offset) (alignUp_ge _ a)
  constructor
  · intro hsub
    have hrw : ComputeOffsetAlignmentBoundary base offset a -
        (ComputeOffsetAlignmentBoundary base offset a - base) = base := by omega
    rw [← hrw]
    exact Nat.dvd_sub' hdr hsub
  · intro hb
    exact Nat.dvd_sub' hdr hb

/-- Witness for C9: a misaligned base address 2 with offset 0 and
alignment 4 yields absolute address 4 — absolutely aligned, while the
scratch-relative offset 2 is not (both sides of the instantiated iff
are false). -/
theorem claim_C9_witness :
    0 < 4 ∧ 2 + 0 ≤ ComputeOffsetAlignmentBoundary 2 0 4 ∧
    ComputeOffsetAlignmentBoundary 2 0 4 % 4 = 0 ∧
    ComputeOffsetAlignmentBoundary 2 0 4 ≤ 4 ∧
    (4 ∣ (ComputeOffsetAlignmentBoundary 2 0 4 - 2) ↔ 4 ∣ 2) := by
  have h := claim_C9_absolute_alignment 2 0 4 (by decide)
  exact ⟨by decide, h.1, h.2.1, h.2.2.1 4 (by decide) (by decide), h.2.2.2⟩

/-- C10: the unsigned-to-signed narrowing of `ReplacePropertyOffset`
preserves every value below `2 ^ 31`, and every offset of a
successfully built schema under a capacity at most `2 ^ 31` lies below
`2 ^ 31`, so the published signed offset equals the allocated one. -/
theorem claim_C10_offset_narrowing (cap : Nat) (ps : List Parameter)
    (s : List FieldDescriptor)
    (hcap : cap ≤ 2 ^ 31) (hbuild : buildSchemaFrom cap 0 ps = Except.ok s) :
    (∀ n : Nat, n < 2 ^ 31 → ReplacePropertyOffset n = (n : Int)) ∧
    (∀ d ∈ s, d.offset < 2 ^ 31 ∧ ReplacePropertyOffset d.offset = (d.offset : Int)) := by
  have hnarrow : ∀ n : Nat, n < 2 ^ 31 → ReplacePropertyOffset n = (n : Int) := by
    intro n hn
    have hmod : n % 2 ^ 32 = n := Nat.mod_eq_of_lt (by omega)
    rw [ReplacePropertyOffset, int32OfUInt32, hmod, if_pos hn]
  refine ⟨hnarrow, ?_⟩
  intro d hd
  obtain ⟨hsig, hlay, hfacts⟩ := buildSchemaFrom_ok cap ps 0 s hbuild
  have hbound : d.offset + d.size ≤ cap := hlay.bound d hd
  obtain ⟨halign, hsize, hcnt⟩ := hfacts d hd
  have hspos : 0 < d.size := by
    rw [hsize]
    exact Nat.mul_pos hcnt (elemSize_pos d.ptype)
  have hlt : d.offset < 2 ^ 31 := by omega
  exact ⟨hlt, hnarrow d.offset hlt⟩

/-- Witness for C10: the scenario schema built under the deployment's
64k capacity; its last descriptor's offset 20 survives the narrowing. -/
theorem claim_C10_witness :
    (65536 ≤ 2 ^ 31 ∧
     buildSchemaFrom HOUDINIENGINE_ASSET_SCRATCHSPACE_SIZE 0 scenarioParams =
      Except.ok [⟨"Count", ParamType.int, 1, 0, 4, 4⟩,
                 ⟨"Tint", ParamType.color, 1, 4, 16, 4⟩,
                 ⟨"Scale", ParamType.float, 3, 20, 12, 4⟩]) ∧
    ((20 : Nat) < 2 ^ 31 ∧
     ReplacePropertyOffset 20 = ((20 : Nat) : Int)) := by
  have hbuild : buildSchemaFrom HOUDINIENGINE_ASSET_SCRATCHSPACE_SIZE 0 scenarioParams =
      Except.ok [⟨"Count", ParamType.int, 1, 0, 4, 4⟩,
                 ⟨"Tint", ParamType.color, 1, 4, 16, 4⟩,
                 ⟨"Scale", ParamType.float, 3, 20, 12, 4⟩] := by rfl
  have h := claim_C10_offset_narrowing HOUDINIENGINE_ASSET_SCRATCHSPACE_SIZE
    scenarioParams _ (by decide) hbuild
  exact ⟨⟨by decide, hbuild⟩,
    h.2 ⟨"Scale", ParamType.float, 3, 20, 12, 4⟩ (by decide)⟩

end HoudiniEngine
